import Mathlib

/-!
Verification of the response-serialization engine of the tiny-http library
(src/src/response.rs), shallowly embedded in Lean.  Byte strings are modelled
as Lean `String`s (the engine treats them as ASCII), machine integers (`uint`)
as `Nat`, fallible paths (the `assert!` calls in `raw_print`) as `Option`.
Helpers that live outside the given sources (the `common` crate's `Header`,
`HTTPVersion` and status-code table, and `util.rs`'s `parse_header_value`,
`EqualReader`, `ChunksEncoder`) are modelled from the specification, as marked.
-/

namespace TinyHttp

/-- Modelled from the spec: the `common` crate's `Header` type is not among the
sources.  Spec §3: a header is a field (case-insensitive token) together with a
value (byte string treated as ASCII). -/
structure Header where
  field : String
  value : String
deriving DecidableEq, Repr

/-- ASCII lower-casing of a single character, used for the case-insensitive
field comparison (`eq_ignore_ascii_case` / `HeaderField::equiv`). -/
def asciiLower (c : Char) : Char :=
  if 65 ≤ c.toNat ∧ c.toNat ≤ 90 then Char.ofNat (c.toNat + 32) else c

/-- Modelled from the spec: the `common` crate's ASCII case-insensitive field
comparison (`h.field.equiv(&"TE")`), spec §3: headers are compared by field
equivalence, ASCII case-insensitive. -/
def fieldEquiv (a b : String) : Bool :=
  a.data.map asciiLower == b.data.map asciiLower

/-- Transfer encoding to use when sending the message (response.rs lines
40-43).  Only supported encodings are representable. -/
inductive TransferEncoding where
  | Identity
  | Chunked
deriving DecidableEq, Repr

/-- `impl FromStr for TransferEncoding` (response.rs lines 45-57): recognizes
identity and chunked, ASCII case-insensitively. -/
def TransferEncoding.fromStr (input : String) : Option TransferEncoding :=
  if fieldEquiv input "identity" then some TransferEncoding.Identity
  else if fieldEquiv input "chunked" then some TransferEncoding.Chunked
  else none

/-- Splits a character list at every occurrence of the separator. -/
def splitOnChar (sep : Char) : List Char → List (List Char)
  | [] => [[]]
  | c :: rest =>
    if c = sep then [] :: splitOnChar sep rest
    else
      match splitOnChar sep rest with
      | [] => [[c]]
      | x :: xs => (c :: x) :: xs

/-- ASCII whitespace trimmed around tokens and weights. -/
def isSpaceChar (c : Char) : Bool := c = ' ' ∨ c = '\t'

/-- Removes leading and trailing ASCII whitespace. -/
def trimSpaces (l : List Char) : List Char :=
  ((l.dropWhile isSpaceChar).reverse.dropWhile isSpaceChar).reverse

/-- Modelled from the spec: `from_str::<uint>` comes from the standard
library, not the sources.  Spec §4.1: the value is parsed as an unsigned
(non-negative) decimal integer; anything else fails. -/
def parseNatChars (l : List Char) : Option Nat :=
  if l ≠ [] ∧ l.all Char.isDigit then
    some (l.foldl (fun n c => n * 10 + (c.toNat - 48)) 0)
  else none

/-- `from_str::<uint>` on a header value (see `parseNatChars`). -/
def parseNat (s : String) : Option Nat := parseNatChars s.data

/-- Modelled from the spec: decimal quality values such as `0.3` parsed over
`ℚ` (exact), standing in for the float weights of `util::parse_header_value`
(util.rs is not among the sources). -/
def parseDecimal (l : List Char) : Option ℚ :=
  match splitOnChar '.' l with
  | [i] => (parseNatChars i).map fun n => mkRat n 1
  | [i, f] =>
    match parseNatChars i, parseNatChars f with
    | some ni, some nf =>
      some (mkRat (ni * 10 ^ f.length + nf) (10 ^ f.length))
    | _, _ => none
  | _ => none

/-- Modelled from the spec: `util::parse_header_value` (util.rs is not among
the sources).  Spec §4.2: parse the header value as a comma-separated list of
`token[;q=weight]` pairs, the weight defaulting to 1.0; §7: unparseable
entries are dropped silently. -/
def parse_header_value (value : String) : List (String × ℚ) :=
  (splitOnChar ',' value.data).filterMap fun part =>
    match splitOnChar ';' part with
    | [tok] => some (String.mk (trimSpaces tok), 1)
    | [tok, param] =>
      match trimSpaces param with
      | 'q' :: '=' :: ws => (parseDecimal ws).map fun q =>
          (String.mk (trimSpaces tok), q)
      | _ => none
    | _ => none

/-- The comparison used to sort parsed `TE` entries: descending by weight. -/
def weightGe (a b : String × ℚ) : Prop := b.2 ≤ a.2

instance : DecidableRel weightGe := fun a b =>
  inferInstanceAs (Decidable (b.2 ≤ a.2))

instance : IsTotal (String × ℚ) weightGe := ⟨fun a b => le_total b.2 a.2⟩

instance : IsTrans (String × ℚ) weightGe :=
  ⟨fun _ _ _ hab hbc => le_trans hbc hab⟩

/-- The descending-by-weight stable sort of the parsed `TE` entries
(`parse.sort_by(|a, b| b.val1().partial_cmp(&a.val1()).unwrap_or(Equal))`,
response.rs line 118).  Weights are `ℚ`, so the NaN fallback case
does not arise. -/
def sortByWeightDesc (l : List (String × ℚ)) : List (String × ℚ) :=
  l.insertionSort weightGe

/-- The loop of response.rs lines 121-129: walk the sorted entries, skip
weights ≤ 0, return the first token recognized as a supported encoding. -/
def firstSupported : List (String × ℚ) → Option TransferEncoding
  | [] => none
  | (tok, w) :: rest =>
    if w ≤ 0 then firstSupported rest
    else
      match TransferEncoding.fromStr tok with
      | some te => some te
      | none => firstSupported rest

/-- The `user_request` computation of `choose_transfer_encoding`
(response.rs lines 103-133): find the `TE` header, parse its value, sort by
descending weight, and pick the first supported positive-weight encoding. -/
def teUserRequest (request_headers : List Header) : Option TransferEncoding :=
  ((request_headers.find? fun h => fieldEquiv h.field "TE").map Header.value).bind
    fun value => firstSupported (sortByWeightDesc (parse_header_value value))

/-- `*http_version <= HTTPVersion(1, 0)`: the `common` crate's `HTTPVersion`
is a (major, minor) pair ordered lexicographically. -/
def versionLe (a b : Nat × Nat) : Bool :=
  a.1 < b.1 ∨ (a.1 = b.1 ∧ a.2 ≤ b.2)

/-- `choose_transfer_encoding` (response.rs lines 91-153): HTTP ≤ 1.0 forces
Identity; else an explicit client `TE` preference wins; else additional
(trailing) headers force Chunked; else unknown or ≥ 32768 length forces
Chunked; else Identity. -/
def choose_transfer_encoding (request_headers : List Header)
    (http_version : Nat × Nat) (entity_length : Option Nat)
    (has_additional_headers : Bool) : TransferEncoding :=
  if versionLe http_version (1, 0) then TransferEncoding.Identity
  else
    match teUserRequest request_headers with
    | some te => te
    | none =>
      if has_additional_headers then TransferEncoding.Chunked
      else if entity_length.elim true fun val => 32768 ≤ val then
        TransferEncoding.Chunked
      else TransferEncoding.Identity

/-- `Response<R>` (response.rs lines 31-36); the body source `R` is modelled
as the byte string it would yield when read to exhaustion. -/
structure Response where
  reader : String
  status_code : Nat
  headers : List Header
  data_length : Option Nat
deriving DecidableEq, Repr

/-- `Response::add_header` (response.rs lines 192-216): forbidden fields are
dropped, `Content-Length` is translated into `data_length` when its value
parses, everything else is appended. -/
def add_header (resp : Response) (header : Header) : Response :=
  if fieldEquiv header.field "Accept-Ranges" ∨
     fieldEquiv header.field "Connection" ∨
     fieldEquiv header.field "Content-Range" ∨
     fieldEquiv header.field "Trailer" ∨
     fieldEquiv header.field "Transfer-Encoding" ∨
     fieldEquiv header.field "Upgrade" then
    resp
  else if fieldEquiv header.field "Content-Length" then
    match parseNat header.value with
    | some val => { resp with data_length := some val }
    | none => resp
  else { resp with headers := resp.headers ++ [header] }

/-- `Response::with_header` (response.rs lines 224-227). -/
def with_header (resp : Response) (header : Header) : Response :=
  add_header resp header

/-- `Response::new` (response.rs lines 163-187): start from an empty header
list and route every supplied header (and every header of the optional
`additional_headers` receiver) through `add_header`. -/
def Response.new (status_code : Nat) (headers : List Header) (data : String)
    (data_length : Option Nat) (additional_headers : Option (List Header)) :
    Response :=
  let response : Response :=
    { reader := data, status_code := status_code, headers := [],
      data_length := data_length }
  let response := headers.foldl add_header response
  match additional_headers with
  | some hs => hs.foldl add_header response
  | none => response

/-- `Response::from_string` (response.rs lines 385-397). -/
def from_string (data : String) : Response :=
  Response.new 200 [⟨"Content-Type", "text/plain; charset=UTF-8"⟩] data
    (some data.data.length) none

/-- `Response::from_data` (response.rs lines 372-382). -/
def from_data (data : String) : Response :=
  Response.new 200 [] data (some data.data.length) none

/-- `Response::new_empty` (response.rs lines 403-411). -/
def new_empty (status_code : Nat) : Response :=
  Response.new status_code [] "" (some 0) none

/-- Modelled from the spec: `StatusCode::get_default_reason_phrase` looks up a
fixed external status-code table (`common` crate, not among the sources; spec
§6).  Only the phrases the spec names are pinned down; others are left empty. -/
def get_default_reason_phrase (status : Nat) : String :=
  if status = 200 then "OK"
  else if status = 101 then "Switching Protocols"
  else ""

/-- The status line written by `write_message_header` (response.rs lines
72-76): `HTTP/<version> <code> <reason phrase>`. -/
def statusLine (http_version : Nat × Nat) (status_code : Nat) : String :=
  "HTTP/" ++ Nat.repr http_version.1 ++ "." ++ Nat.repr http_version.2 ++ " "
    ++ Nat.repr status_code ++ " " ++ get_default_reason_phrase status_code

/-- What `raw_print` leaves on the sink, structured: the status line, the
final header list (emitted in order, each as `field: value` CRLF), and the
body bytes written after the blank line. -/
structure SerializedOutput where
  statusLine : String
  headers : List Header
  body : String
deriving DecidableEq, Repr

/-- `write_message_header` (response.rs lines 67-89) followed by the body:
flattens a `SerializedOutput` to the byte stream actually written. -/
def serializeBytes (out : SerializedOutput) : String :=
  out.statusLine ++ "\r\n"
    ++ String.join (out.headers.map fun h => h.field ++ ": " ++ h.value ++ "\r\n")
    ++ "\r\n" ++ out.body

/-- Modelled from the spec: `util::ChunksEncoder` (util.rs is not among the
sources).  Spec §4.3: each nonempty write emits the hexadecimal length, CRLF,
the bytes, CRLF; closing emits `0\r\n\r\n`.  `util::copy` submits the whole
body as its writes; an empty body writes nothing before the terminator. -/
def chunkedEncode (data : String) : String :=
  (if data.data.length = 0 then ""
   else String.mk (Nat.toDigits 16 data.data.length) ++ "\r\n" ++ data ++ "\r\n")
    ++ "0\r\n\r\n"

/-- Modelled from the spec: `util::EqualReader` (util.rs is not among the
sources).  Spec §4.4: a bounded reader yielding at most the budget, fewer if
the source ends early; copying through it takes the first `n` bytes. -/
def equalReaderCopy (data : String) (n : Nat) : String :=
  String.mk (data.data.take n)

/-- The body-suppression test of `raw_print` (response.rs lines 287-292):
`do_not_send_body` or a status code in 100-199, 204 or 304. -/
def suppressBody (do_not_send_body : Bool) (status_code : Nat) : Bool :=
  do_not_send_body ∨ (100 ≤ status_code ∧ status_code ≤ 199)
    ∨ status_code = 204 ∨ status_code = 304

/-- The header pipeline of `raw_print` before the framing header is appended
(response.rs lines 266-284): insert `Date` at the front if absent, then
`Server` at the front if absent, then on upgrade insert `Upgrade: <name>` at
the front and then `Connection: upgrade` at the front.  The current date
string is passed in (`build_date_header` reads the clock). -/
def prepHeaders (resp : Response) (upgrade : Option String)
    (dateValue : String) : List Header :=
  let headers := resp.headers
  let headers :=
    if (headers.find? fun h => fieldEquiv h.field "Date").isNone then
      Header.mk "Date" dateValue :: headers
    else headers
  let headers :=
    if (headers.find? fun h => fieldEquiv h.field "Server").isNone then
      Header.mk "Server" "tiny-http (Rust)" :: headers
    else headers
  match upgrade with
  | some name =>
    Header.mk "Connection" "upgrade" :: Header.mk "Upgrade" name :: headers
  | none => headers

/-- `Response::raw_print` (response.rs lines 258-348).  Returns `none` exactly
when one of the `assert!(self.data_length.is_some())` calls fails (Identity
resolved with no declared length); otherwise the structured output.  The two
asserts guard the same condition, so they are checked once. -/
def raw_print (resp : Response) (http_version : Nat × Nat)
    (request_headers : List Header) (do_not_send_body : Bool)
    (upgrade : Option String) (dateValue : String) :
    Option SerializedOutput :=
  let transfer_encoding : Option TransferEncoding :=
    if upgrade.isSome then none
    else some (choose_transfer_encoding request_headers http_version
      resp.data_length false)
  let headers := prepHeaders resp upgrade dateValue
  let dnsb := suppressBody do_not_send_body resp.status_code
  match transfer_encoding with
  | some TransferEncoding.Chunked =>
    some { statusLine := statusLine http_version resp.status_code,
           headers := headers ++ [⟨"Transfer-Encoding", "chunked"⟩],
           body := if dnsb then "" else chunkedEncode resp.reader }
  | some TransferEncoding.Identity =>
    match resp.data_length with
    | none => none
    | some data_length =>
      some { statusLine := statusLine http_version resp.status_code,
             headers := headers ++ [⟨"Content-Length", Nat.repr data_length⟩],
             body :=
               if dnsb then ""
               else if 1 ≤ data_length then
                 equalReaderCopy resp.reader data_length
               else "" }
  | none =>
    some { statusLine := statusLine http_version resp.status_code,
           headers := headers, body := "" }

/-! ## Helper lemmas -/

/-- Fields that `add_header` actually stores: none of the six forbidden
fields and not `Content-Length`. -/
def storableField (f : String) : Prop :=
  fieldEquiv f "Accept-Ranges" = false ∧ fieldEquiv f "Connection" = false ∧
  fieldEquiv f "Content-Range" = false ∧ fieldEquiv f "Trailer" = false ∧
  fieldEquiv f "Transfer-Encoding" = false ∧ fieldEquiv f "Upgrade" = false ∧
  fieldEquiv f "Content-Length" = false

instance (f : String) : Decidable (storableField f) := by
  unfold storableField; infer_instance

theorem fieldEquiv_congr {a b : String} (h : fieldEquiv a b = true)
    (c : String) : fieldEquiv a c = fieldEquiv b c := by
  unfold fieldEquiv at *
  rw [beq_iff_eq] at h
  rw [h]

/-- For a header whose field equals `Content-Length` case-insensitively, the
forbidden-field guard of `add_header` is passed and the `Content-Length`
branch runs: the header is never stored, only `data_length` may change. -/
theorem add_header_of_content_length {resp : Response} {header : Header}
    (hcl : fieldEquiv header.field "Content-Length" = true) :
    add_header resp header =
      match parseNat header.value with
      | some val => { resp with data_length := some val }
      | none => resp := by
  have h1 : fieldEquiv header.field "Accept-Ranges" = false :=
    (fieldEquiv_congr hcl "Accept-Ranges").trans (by decide)
  have h2 : fieldEquiv header.field "Connection" = false :=
    (fieldEquiv_congr hcl "Connection").trans (by decide)
  have h3 : fieldEquiv header.field "Content-Range" = false :=
    (fieldEquiv_congr hcl "Content-Range").trans (by decide)
  have h4 : fieldEquiv header.field "Trailer" = false :=
    (fieldEquiv_congr hcl "Trailer").trans (by decide)
  have h5 : fieldEquiv header.field "Transfer-Encoding" = false :=
    (fieldEquiv_congr hcl "Transfer-Encoding").trans (by decide)
  have h6 : fieldEquiv header.field "Upgrade" = false :=
    (fieldEquiv_congr hcl "Upgrade").trans (by decide)
  unfold add_header
  simp [h1, h2, h3, h4, h5, h6, hcl]

/-- Every header of `prepHeaders` without upgrade is the inserted `Date`, the
inserted `Server`, or one of the response's own stored headers. -/
theorem mem_prepHeaders_no_upgrade {resp : Response} {dateValue : String}
    {h : Header} (hm : h ∈ prepHeaders resp none dateValue) :
    h = ⟨"Date", dateValue⟩ ∨ h = ⟨"Server", "tiny-http (Rust)"⟩ ∨
      h ∈ resp.headers := by
  simp only [prepHeaders] at hm
  split at hm <;> split at hm <;>
    (try simp only [List.mem_cons] at hm) <;> tauto

/-- Claim C9: for every request with HTTP version at most 1.0,
`choose_transfer_encoding` returns Identity regardless of the request's `TE`
header, of the declared body length (including unknown), and of the
additional-headers flag. -/
theorem C9_http10_identity (request_headers : List Header)
    (http_version : Nat × Nat) (entity_length : Option Nat) (b : Bool)
    (hv : versionLe http_version (1, 0) = true) :
    choose_transfer_encoding request_headers http_version entity_length b =
      TransferEncoding.Identity := by
  unfold choose_transfer_encoding
  simp [hv]

/-- Witness for C9 at HTTP/1.0 with a `TE: chunked` header and unknown
length. -/
theorem C9_http10_identity_witness :
    versionLe (1, 0) (1, 0) = true ∧
    choose_transfer_encoding [⟨"TE", "chunked"⟩] (1, 0) none false =
      TransferEncoding.Identity :=
  ⟨by decide, C9_http10_identity [⟨"TE", "chunked"⟩] (1, 0) none false
    (by decide)⟩

/-- Claim C4: at HTTP ≥ 1.1 with no supported `TE` preference resolved and no
trailing headers pending, a known declared length < 32768 yields Identity and
an unknown or ≥ 32768 length yields Chunked. -/
theorem C4_length_threshold (request_headers : List Header)
    (http_version : Nat × Nat) (entity_length : Option Nat)
    (hv : versionLe http_version (1, 0) = false)
    (hte : teUserRequest request_headers = none) :
    choose_transfer_encoding request_headers http_version entity_length false =
      match entity_length with
      | some n =>
        if n < 32768 then TransferEncoding.Identity
        else TransferEncoding.Chunked
      | none => TransferEncoding.Chunked := by
  cases entity_length with
  | none => simp [choose_transfer_encoding, hv, hte]
  | some n =>
    rcases Nat.lt_or_ge n 32768 with h | h
    · simp [choose_transfer_encoding, hv, hte, h, Nat.not_le.mpr h]
    · simp [choose_transfer_encoding, hv, hte, h, Nat.not_lt.mpr h]

/-- Witness for C4 at HTTP/1.1, no request headers, declared length 5. -/
theorem C4_length_threshold_witness :
    versionLe (1, 1) (1, 0) = false ∧ teUserRequest [] = none ∧
    choose_transfer_encoding [] (1, 1) (some 5) false =
      match some 5 with
      | some n =>
        if n < 32768 then TransferEncoding.Identity
        else TransferEncoding.Chunked
      | none => TransferEncoding.Chunked :=
  ⟨by decide, by decide,
    C4_length_threshold [] (1, 1) (some 5) (by decide) (by decide)⟩

/-- Claim C1 (refuted — the code contradicts its own `assert!`): the spec
asserts that whenever the Negotiator resolves Identity the declared length is
present, for every request-header list, HTTP version and declared length
(including `none`).  In the code `choose_transfer_encoding` returns Identity
for any HTTP ≤ 1.0 request and for any request whose `TE` header selects
identity, with no length guarantee, so `raw_print` reaches
`assert!(self.data_length.is_some())` with `data_length == None` (modelled as
the `none` result) and panics. -/
theorem C1_identity_assert_fails :
    choose_transfer_encoding [] (1, 0) none false =
      TransferEncoding.Identity ∧
    raw_print
      { reader := "data", status_code := 200, headers := [],
        data_length := none } (1, 0) [] false none "D" = none ∧
    choose_transfer_encoding [⟨"TE", "identity"⟩] (1, 1) none false =
      TransferEncoding.Identity ∧
    raw_print
      { reader := "data", status_code := 200, headers := [],
        data_length := none } (1, 1) [⟨"TE", "identity"⟩] false none "D" =
      none := by
  refine ⟨by decide, by decide, by decide, by decide⟩

/-- Claim C5: `add_header` with any of the six forbidden fields
(ASCII case-insensitively) is a no-op — the header list and declared length
are unchanged (hence also through `with_header` and the constructor), and
serialization of the response is unchanged, so such a caller-supplied header
never appears in the emitted header block. -/
theorem C5_forbidden_header_dropped (resp : Response) (header : Header)
    (hf : fieldEquiv header.field "Accept-Ranges" = true ∨
          fieldEquiv header.field "Connection" = true ∨
          fieldEquiv header.field "Content-Range" = true ∨
          fieldEquiv header.field "Trailer" = true ∨
          fieldEquiv header.field "Transfer-Encoding" = true ∨
          fieldEquiv header.field "Upgrade" = true) :
    add_header resp header = resp ∧ with_header resp header = resp ∧
    ∀ (http_version : Nat × Nat) (request_headers : List Header)
      (do_not_send_body : Bool) (upgrade : Option String) (dateValue : String),
      raw_print (add_header resp header) http_version request_headers
          do_not_send_body upgrade dateValue =
        raw_print resp http_version request_headers do_not_send_body upgrade
          dateValue := by
  have h : add_header resp header = resp := by
    unfold add_header
    rw [if_pos hf]
  exact ⟨h, h, fun _ _ _ _ _ => by rw [h]⟩

/-- Witness for C5: a lower-cased `connection: close` header is dropped. -/
theorem C5_forbidden_header_dropped_witness :
    (fieldEquiv "connection" "Accept-Ranges" = true ∨
     fieldEquiv "connection" "Connection" = true ∨
     fieldEquiv "connection" "Content-Range" = true ∨
     fieldEquiv "connection" "Trailer" = true ∨
     fieldEquiv "connection" "Transfer-Encoding" = true ∨
     fieldEquiv "connection" "Upgrade" = true) ∧
    add_header ⟨"x", 200, [], none⟩ ⟨"connection", "close"⟩ =
      ⟨"x", 200, [], none⟩ ∧
    with_header ⟨"x", 200, [], none⟩ ⟨"connection", "close"⟩ =
      ⟨"x", 200, [], none⟩ ∧
    ∀ (http_version : Nat × Nat) (request_headers : List Header)
      (do_not_send_body : Bool) (upgrade : Option String) (dateValue : String),
      raw_print (add_header ⟨"x", 200, [], none⟩ ⟨"connection", "close"⟩)
          http_version request_headers do_not_send_body upgrade dateValue =
        raw_print ⟨"x", 200, [], none⟩ http_version request_headers
          do_not_send_body upgrade dateValue :=
  ⟨by decide,
   C5_forbidden_header_dropped ⟨"x", 200, [], none⟩ ⟨"connection", "close"⟩
     (by decide)⟩

/-- Claim C6: `add_header` with a `Content-Length` field never appends the
header; a parseable value replaces the declared length, an unparseable value
leaves the response entirely unchanged with no error surfaced. -/
theorem C6_content_length_header (resp : Response) (header : Header)
    (hcl : fieldEquiv header.field "Content-Length" = true) :
    (add_header resp header).headers = resp.headers ∧
    (∀ n, parseNat header.value = some n →
      add_header resp header = { resp with data_length := some n }) ∧
    (parseNat header.value = none → add_header resp header = resp) := by
  have h := @add_header_of_content_length resp header hcl
  refine ⟨?_, ?_, ?_⟩
  · rw [h]; cases hp : parseNat header.value <;> simp
  · intro n hn; rw [h, hn]
  · intro hn; rw [h, hn]

/-- Witness for C6: `content-length: 42` updates the declared length of a
response without touching its header list. -/
theorem C6_content_length_header_witness :
    fieldEquiv "content-length" "Content-Length" = true ∧
    (add_header ⟨"x", 200, [], none⟩ ⟨"content-length", "42"⟩).headers =
      ([] : List Header) ∧
    (∀ n, parseNat "42" = some n →
      add_header ⟨"x", 200, [], none⟩ ⟨"content-length", "42"⟩ =
        ⟨"x", 200, [], some n⟩) ∧
    (parseNat "42" = none →
      add_header ⟨"x", 200, [], none⟩ ⟨"content-length", "42"⟩ =
        ⟨"x", 200, [], none⟩) :=
  ⟨by decide,
   C6_content_length_header ⟨"x", 200, [], none⟩ ⟨"content-length", "42"⟩
     (by decide)⟩

/-- Claim C3: with an upgrade protocol name set, `raw_print` inserts
`Upgrade: <name>` and then `Connection: upgrade` at the front, so Connection
appears first in the emitted header block, emits neither `Content-Length` nor
`Transfer-Encoding`, and writes no body bytes, for every body source and
declared length. -/
theorem C3_upgrade_headers (resp : Response) (http_version : Nat × Nat)
    (request_headers : List Header) (do_not_send_body : Bool)
    (name dateValue : String)
    (hclean : ∀ h ∈ resp.headers,
      fieldEquiv h.field "Content-Length" = false ∧
      fieldEquiv h.field "Transfer-Encoding" = false) :
    raw_print resp http_version request_headers do_not_send_body (some name)
        dateValue =
      some { statusLine := statusLine http_version resp.status_code,
             headers := Header.mk "Connection" "upgrade" ::
               Header.mk "Upgrade" name :: prepHeaders resp none dateValue,
             body := "" } ∧
    ∀ h ∈ Header.mk "Connection" "upgrade" ::
        Header.mk "Upgrade" name :: prepHeaders resp none dateValue,
      fieldEquiv h.field "Content-Length" = false ∧
      fieldEquiv h.field "Transfer-Encoding" = false := by
  constructor
  · rfl
  · intro h hm
    rcases List.mem_cons.mp hm with rfl | hm
    · exact ⟨rfl, rfl⟩
    rcases List.mem_cons.mp hm with rfl | hm
    · exact ⟨rfl, rfl⟩
    rcases mem_prepHeaders_no_upgrade hm with rfl | rfl | hm
    · exact ⟨rfl, rfl⟩
    · exact ⟨rfl, rfl⟩
    · exact hclean h hm

/-- Witness for C3: a 101 response with a nonempty body source upgraded to
websocket. -/
theorem C3_upgrade_headers_witness :
    (∀ h ∈ (Response.mk "body" 101 [] (some 4)).headers,
      fieldEquiv h.field "Content-Length" = false ∧
      fieldEquiv h.field "Transfer-Encoding" = false) ∧
    (raw_print ⟨"body", 101, [], some 4⟩ (1, 1) [] false (some "websocket")
        "D" =
      some { statusLine := statusLine (1, 1) 101,
             headers := Header.mk "Connection" "upgrade" ::
               Header.mk "Upgrade" "websocket" ::
               prepHeaders ⟨"body", 101, [], some 4⟩ none "D",
             body := "" } ∧
     ∀ h ∈ Header.mk "Connection" "upgrade" ::
         Header.mk "Upgrade" "websocket" ::
         prepHeaders ⟨"body", 101, [], some 4⟩ none "D",
       fieldEquiv h.field "Content-Length" = false ∧
       fieldEquiv h.field "Transfer-Encoding" = false) :=
  ⟨by simp,
   C3_upgrade_headers ⟨"body", 101, [], some 4⟩ (1, 1) [] false "websocket"
     "D" (by simp)⟩

/-- Claim C7: when `force_no_body` is set or the status code is in 100-199
or equals 204 or 304, `raw_print` writes zero body bytes after the blank
line even for a nonempty body source, and the only framing header appended
beyond the prepared headers is the one the resolved encoding mandates
(`Transfer-Encoding: chunked` for Chunked, `Content-Length` for Identity,
nothing on upgrade). -/
theorem C7_body_suppression (resp : Response) (http_version : Nat × Nat)
    (request_headers : List Header) (do_not_send_body : Bool)
    (upgrade : Option String) (dateValue : String) (out : SerializedOutput)
    (hsupp : suppressBody do_not_send_body resp.status_code = true)
    (hout : raw_print resp http_version request_headers do_not_send_body
      upgrade dateValue = some out) :
    out.body = "" ∧
    (upgrade.isSome = true →
      out.headers = prepHeaders resp upgrade dateValue) ∧
    (upgrade = none →
      (choose_transfer_encoding request_headers http_version resp.data_length
          false = TransferEncoding.Chunked →
        out.headers = prepHeaders resp upgrade dateValue ++
          [⟨"Transfer-Encoding", "chunked"⟩]) ∧
      (choose_transfer_encoding request_headers http_version resp.data_length
          false = TransferEncoding.Identity →
        ∃ n, resp.data_length = some n ∧
          out.headers = prepHeaders resp upgrade dateValue ++
            [⟨"Content-Length", Nat.repr n⟩])) := by
  cases upgrade with
  | some name =>
    simp only [raw_print, Option.isSome_some, if_true] at hout
    obtain rfl := Option.some.inj hout
    refine ⟨rfl, fun _ => rfl, ?_⟩
    intro hc
    cases hc
  | none =>
    simp only [raw_print, Option.isSome_none, Bool.false_eq_true,
      if_false] at hout
    split at hout
    · rename_i heq
      have hc := Option.some.inj heq
      obtain rfl := Option.some.inj hout
      refine ⟨by simp [hsupp], ?_, ?_⟩
      · intro hu; cases hu
      · intro _
        refine ⟨fun _ => rfl, fun hi => ?_⟩
        rw [hc] at hi
        cases hi
    · rename_i heq
      have hc := Option.some.inj heq
      cases hdl : resp.data_length with
      | none =>
        rw [hdl] at hout
        simp at hout
      | some n =>
        rw [hdl] at hout hc
        obtain rfl := Option.some.inj hout
        refine ⟨by simp [hsupp], ?_, ?_⟩
        · intro hu; cases hu
        · intro _
          refine ⟨fun hch => ?_, fun _ => ⟨n, rfl, rfl⟩⟩
          rw [hc] at hch
          cases hch
    · rename_i heq
      exact Option.noConfusion heq

/-- Witness for C7: a 204 response with a nonempty body source and declared
length 5 serializes with an empty body. -/
theorem C7_body_suppression_witness :
    suppressBody false 204 = true ∧
    ((SerializedOutput.mk (statusLine (1, 1) 204)
        (prepHeaders ⟨"hello", 204, [], some 5⟩ none "D" ++
          [⟨"Content-Length", Nat.repr 5⟩]) "").body = "" ∧
     ((none : Option String).isSome = true →
       (SerializedOutput.mk (statusLine (1, 1) 204)
          (prepHeaders ⟨"hello", 204, [], some 5⟩ none "D" ++
            [⟨"Content-Length", Nat.repr 5⟩]) "").headers =
         prepHeaders ⟨"hello", 204, [], some 5⟩ none "D") ∧
     ((none : Option String) = none →
       (choose_transfer_encoding [] (1, 1) (some 5) false =
          TransferEncoding.Chunked →
         (SerializedOutput.mk (statusLine (1, 1) 204)
            (prepHeaders ⟨"hello", 204, [], some 5⟩ none "D" ++
              [⟨"Content-Length", Nat.repr 5⟩]) "").headers =
           prepHeaders ⟨"hello", 204, [], some 5⟩ none "D" ++
             [⟨"Transfer-Encoding", "chunked"⟩]) ∧
       (choose_transfer_encoding [] (1, 1) (some 5) false =
          TransferEncoding.Identity →
         ∃ n, (some 5 : Option Nat) = some n ∧
           (SerializedOutput.mk (statusLine (1, 1) 204)
              (prepHeaders ⟨"hello", 204, [], some 5⟩ none "D" ++
                [⟨"Content-Length", Nat.repr 5⟩]) "").headers =
             prepHeaders ⟨"hello", 204, [], some 5⟩ none "D" ++
               [⟨"Content-Length", Nat.repr n⟩]))) :=
  ⟨by decide,
   C7_body_suppression ⟨"hello", 204, [], some 5⟩ (1, 1) [] false none "D"
     (SerializedOutput.mk (statusLine (1, 1) 204)
       (prepHeaders ⟨"hello", 204, [], some 5⟩ none "D" ++
         [Header.mk "Content-Length" (Nat.repr 5)]) "")
     (by decide) (by rfl)⟩

/-- Claim C8: serializing the response built by `from_string` from `"ok"`
over HTTP/1.1 with no `TE` header, no body suppression and no upgrade yields
the status line `HTTP/1.1 200 OK`, a header block with `Server`, `Date`,
`Content-Type: text/plain; charset=UTF-8` and `Content-Length: 2` each
CRLF-terminated, a blank CRLF line, and exactly the body bytes `ok`. -/
theorem C8_from_string_scenario (d : String) :
    raw_print (from_string "ok") (1, 1) [] false none d =
      some { statusLine := "HTTP/1.1 200 OK",
             headers := [⟨"Server", "tiny-http (Rust)"⟩, ⟨"Date", d⟩,
                         ⟨"Content-Type", "text/plain; charset=UTF-8"⟩,
                         ⟨"Content-Length", "2"⟩],
             body := "ok" } ∧
    serializeBytes
        { statusLine := "HTTP/1.1 200 OK",
          headers := [⟨"Server", "tiny-http (Rust)"⟩, ⟨"Date", d⟩,
                      ⟨"Content-Type", "text/plain; charset=UTF-8"⟩,
                      ⟨"Content-Length", "2"⟩],
          body := "ok" } =
      "HTTP/1.1 200 OK\r\nServer: tiny-http (Rust)\r\nDate: " ++ d ++ "\r\n"
        ++ "Content-Type: text/plain; charset=UTF-8\r\n"
        ++ "Content-Length: 2\r\n" ++ "\r\n" ++ "ok" :=
  ⟨rfl, rfl⟩

/-- Witness for C8 at the date string `"D"`. -/
theorem C8_from_string_scenario_witness :
    raw_print (from_string "ok") (1, 1) [] false none "D" =
      some { statusLine := "HTTP/1.1 200 OK",
             headers := [⟨"Server", "tiny-http (Rust)"⟩, ⟨"Date", "D"⟩,
                         ⟨"Content-Type", "text/plain; charset=UTF-8"⟩,
                         ⟨"Content-Length", "2"⟩],
             body := "ok" } :=
  (C8_from_string_scenario "D").1

/-- A header found in the list after one `add_header` step was either already
stored, or is the added one and then its field is storable. -/
theorem mem_add_header {r : Response} {x h : Header}
    (hm : h ∈ (add_header r x).headers) :
    h ∈ r.headers ∨ (h = x ∧ storableField x.field) := by
  unfold add_header at hm
  split at hm
  · exact Or.inl hm
  · rename_i hforb
    split at hm
    · rename_i hcl
      split at hm <;> exact Or.inl hm
    · rename_i hcl
      simp only [List.mem_append, List.mem_singleton] at hm
      rcases hm with hm | rfl
      · exact Or.inl hm
      · simp only [not_or, Bool.not_eq_true] at hforb hcl
        exact Or.inr ⟨rfl,
          ⟨hforb.1, hforb.2.1, hforb.2.2.1, hforb.2.2.2.1, hforb.2.2.2.2.1,
            hforb.2.2.2.2.2, hcl⟩⟩

/-- Folding `add_header` over a list only ever stores headers with storable
fields. -/
theorem mem_foldl_add_header {l : List Header} {r : Response} {h : Header}
    (hm : h ∈ (l.foldl add_header r).headers) :
    h ∈ r.headers ∨ storableField h.field := by
  induction l generalizing r with
  | nil => exact Or.inl hm
  | cons x xs ih =>
    rcases ih (r := add_header r x) hm with hm2 | hs
    · rcases mem_add_header hm2 with hm3 | ⟨rfl, hs⟩
      · exact Or.inl hm3
      · exact Or.inr hs
    · exact Or.inr hs

/-- Folding `add_header` over headers none of which is a `Content-Length`
with a parseable value leaves the declared length unchanged. -/
theorem foldl_add_header_data_length {l : List Header} {r : Response}
    (hl : ∀ x ∈ l, fieldEquiv x.field "Content-Length" = true →
      parseNat x.value = none) :
    (l.foldl add_header r).data_length = r.data_length := by
  induction l generalizing r with
  | nil => rfl
  | cons x xs ih =>
    have hx : (add_header r x).data_length = r.data_length := by
      unfold add_header
      split
      · rfl
      · split
        · rename_i hcl
          rw [hl x (List.mem_cons_self x xs) hcl]
        · rfl
    rw [List.foldl_cons, ih fun y hy => hl y (List.mem_cons_of_mem x hy), hx]

/-- Claim C10: `Response::new` routes every supplied header (and every header
of the optional additional-headers receiver) through `add_header`, so a
constructed Response stores no forbidden field and no `Content-Length`
header, and a parseable `Content-Length` entry in the constructor's header
list (not later overridden) replaces the `data_length` argument. -/
theorem C10_new_routes_add_header (status : Nat) (data : String)
    (dl : Option Nat) (hs₁ hs₂ : List Header) (h : Header) (n : Nat)
    (hcl : fieldEquiv h.field "Content-Length" = true)
    (hn : parseNat h.value = some n)
    (hafter : ∀ x ∈ hs₂, fieldEquiv x.field "Content-Length" = true →
      parseNat x.value = none) :
    (∀ (headers : List Header) (add : Option (List Header)) (g : Header),
      g ∈ (Response.new status headers data dl add).headers →
      storableField g.field) ∧
    (Response.new status (hs₁ ++ h :: hs₂) data dl none).data_length =
      some n := by
  constructor
  · intro headers add g hg
    cases add with
    | none =>
      rcases mem_foldl_add_header (l := headers)
          (r := ⟨data, status, [], dl⟩) hg with hbase | hs
      · cases hbase
      · exact hs
    | some ah =>
      rcases mem_foldl_add_header (l := ah) hg with hg2 | hs
      · rcases mem_foldl_add_header (l := headers)
            (r := ⟨data, status, [], dl⟩) hg2 with hbase | hs
        · cases hbase
        · exact hs
      · exact hs
  · have e1 : Response.new status (hs₁ ++ h :: hs₂) data dl none =
        hs₂.foldl add_header
          (add_header (hs₁.foldl add_header ⟨data, status, [], dl⟩) h) := by
      show (hs₁ ++ h :: hs₂).foldl add_header ⟨data, status, [], dl⟩ = _
      rw [List.foldl_append, List.foldl_cons]
    rw [e1, foldl_add_header_data_length hafter,
      add_header_of_content_length hcl, hn]

/-- Witness for C10: a `Content-Length: 7` entry after a custom header
overrides a `none` length argument. -/
theorem C10_new_routes_add_header_witness :
    fieldEquiv "Content-Length" "Content-Length" = true ∧
    parseNat "7" = some 7 ∧
    (∀ x ∈ ([] : List Header), fieldEquiv x.field "Content-Length" = true →
      parseNat x.value = none) ∧
    (∀ (headers : List Header) (add : Option (List Header)) (g : Header),
      g ∈ (Response.new 200 headers "abc" none add).headers →
      storableField g.field) ∧
    (Response.new 200 ([⟨"X-Custom", "y"⟩] ++ ⟨"Content-Length", "7"⟩ :: [])
      "abc" none none).data_length = some 7 :=
  ⟨by decide, by decide, by simp,
   (C10_new_routes_add_header 200 "abc" none [⟨"X-Custom", "y"⟩] []
     ⟨"Content-Length", "7"⟩ 7 (by decide) (by decide) (by simp)).1,
   (C10_new_routes_add_header 200 "abc" none [⟨"X-Custom", "y"⟩] []
     ⟨"Content-Length", "7"⟩ 7 (by decide) (by decide) (by simp)).2⟩

/-- On a list sorted descending by weight, the walk of response.rs lines
121-129 returns a positive-weight supported entry of maximal weight among the
positive-weight supported entries. -/
theorem firstSupported_argmax {l : List (String × ℚ)}
    (hs : List.Sorted weightGe l) {te : TransferEncoding}
    (h : firstSupported l = some te) :
    ∃ p ∈ l, 0 < p.2 ∧ TransferEncoding.fromStr p.1 = some te ∧
      ∀ q ∈ l, 0 < q.2 → (TransferEncoding.fromStr q.1).isSome = true →
        q.2 ≤ p.2 := by
  induction l with
  | nil => cases h
  | cons a rest ih =>
    obtain ⟨tok, w⟩ := a
    rw [List.sorted_cons] at hs
    obtain ⟨hhead, hrest⟩ := hs
    simp only [firstSupported] at h
    by_cases hw : w ≤ 0
    · rw [if_pos hw] at h
      obtain ⟨p, hp, hpw, hpte, hmax⟩ := ih hrest h
      refine ⟨p, List.mem_cons_of_mem _ hp, hpw, hpte, ?_⟩
      intro q hq hqw hqte
      rcases List.mem_cons.mp hq with rfl | hq
      · exact absurd hqw (not_lt.mpr hw)
      · exact hmax q hq hqw hqte
    · rw [if_neg hw] at h
      cases hc : TransferEncoding.fromStr tok with
      | some te0 =>
        rw [hc] at h
        obtain rfl := Option.some.inj h
        refine ⟨(tok, w), List.mem_cons_self _ _, not_le.mp hw, hc, ?_⟩
        intro q hq _ _
        rcases List.mem_cons.mp hq with rfl | hq
        · exact le_refl _
        · exact hhead q hq
      | none =>
        rw [hc] at h
        obtain ⟨p, hp, hpw, hpte, hmax⟩ := ih hrest h
        refine ⟨p, List.mem_cons_of_mem _ hp, hpw, hpte, ?_⟩
        intro q hq hqw hqte
        rcases List.mem_cons.mp hq with rfl | hq
        · rw [hc] at hqte; cases hqte
        · exact hmax q hq hqw hqte

/-- If some entry has positive weight and a supported token, the walk
resolves. -/
theorem firstSupported_isSome {l : List (String × ℚ)}
    (hex : ∃ p ∈ l, 0 < p.2 ∧ (TransferEncoding.fromStr p.1).isSome = true) :
    (firstSupported l).isSome = true := by
  induction l with
  | nil =>
    rcases hex with ⟨p, hp, _⟩
    cases hp
  | cons a rest ih =>
    obtain ⟨tok, w⟩ := a
    simp only [firstSupported]
    rcases hex with ⟨p, hp, hpw, hpte⟩
    rcases List.mem_cons.mp hp with rfl | hp
    · rw [if_neg (not_le.mpr hpw)]
      cases hc : TransferEncoding.fromStr tok with
      | some te => simp [hc]
      | none => simp [hc] at hpte
    · by_cases hw : w ≤ 0
      · rw [if_pos hw]
        exact ih ⟨p, hp, hpw, hpte⟩
      · rw [if_neg hw]
        cases hc : TransferEncoding.fromStr tok with
        | some te => simp [hc]
        | none => exact ih ⟨p, hp, hpw, hpte⟩

/-- Claim C2: at HTTP ≥ 1.1, for a request whose `TE` header value parses to
an entry list containing a positive-weight supported token,
`choose_transfer_encoding` discards the entries with weight ≤ 0 and returns a
supported encoding carried by a positive-weight entry whose weight is maximal
among all positive-weight supported entries — a characterization independent
of the order of the entries; in particular `TE: identity;q=0.3, chunked;q=0.9`
at HTTP/1.1 with a declared length of 50 bytes resolves to Chunked. -/
theorem C2_te_highest_weight (request_headers : List Header)
    (http_version : Nat × Nat) (entity_length : Option Nat) (hd : Header)
    (pairs : List (String × ℚ))
    (hv : versionLe http_version (1, 0) = false)
    (hfind : (request_headers.find? fun h => fieldEquiv h.field "TE") =
      some hd)
    (hparse : parse_header_value hd.value = pairs)
    (hex : ∃ p ∈ pairs, 0 < p.2 ∧
      (TransferEncoding.fromStr p.1).isSome = true) :
    (∃ p ∈ pairs, 0 < p.2 ∧
      TransferEncoding.fromStr p.1 =
        some (choose_transfer_encoding request_headers http_version
          entity_length false) ∧
      ∀ q ∈ pairs, 0 < q.2 →
        (TransferEncoding.fromStr q.1).isSome = true → q.2 ≤ p.2) ∧
    choose_transfer_encoding [⟨"TE", "identity;q=0.3, chunked;q=0.9"⟩] (1, 1)
      (some 50) false = TransferEncoding.Chunked := by
  refine ⟨?_, by decide⟩
  have hmem : ∀ q : String × ℚ, q ∈ sortByWeightDesc pairs ↔ q ∈ pairs :=
    fun q => (List.perm_insertionSort weightGe pairs).mem_iff
  have hex2 : ∃ p ∈ sortByWeightDesc pairs, 0 < p.2 ∧
      (TransferEncoding.fromStr p.1).isSome = true := by
    rcases hex with ⟨p, hp, hpw, hpte⟩
    exact ⟨p, (hmem p).mpr hp, hpw, hpte⟩
  obtain ⟨te, hte⟩ := Option.isSome_iff_exists.mp (firstSupported_isSome hex2)
  have hu : teUserRequest request_headers = some te := by
    unfold teUserRequest
    rw [hfind]
    simpa [hparse] using hte
  have hch : choose_transfer_encoding request_headers http_version
      entity_length false = te := by
    simp [choose_transfer_encoding, hv, hu]
  obtain ⟨p, hp, hpw, hpte, hmax⟩ :=
    firstSupported_argmax (List.sorted_insertionSort weightGe pairs) hte
  refine ⟨p, (hmem p).mp hp, hpw, ?_, ?_⟩
  · rw [hch]
    exact hpte
  · intro q hq hqw hqte
    exact hmax q ((hmem q).mpr hq) hqw hqte

/-- Witness for C2: the spec's own example header list. -/
theorem C2_te_highest_weight_witness :
    versionLe (1, 1) (1, 0) = false ∧
    ([(⟨"TE", "identity;q=0.3, chunked;q=0.9"⟩ : Header)].find? fun h =>
      fieldEquiv h.field "TE") =
        some ⟨"TE", "identity;q=0.3, chunked;q=0.9"⟩ ∧
    parse_header_value "identity;q=0.3, chunked;q=0.9" =
      [("identity", mkRat 3 10), ("chunked", mkRat 9 10)] ∧
    (∃ p ∈ [("identity", mkRat 3 10), ("chunked", mkRat 9 10)], 0 < p.2 ∧
      (TransferEncoding.fromStr p.1).isSome = true) ∧
    (∃ p ∈ [("identity", mkRat 3 10), ("chunked", mkRat 9 10)], 0 < p.2 ∧
      TransferEncoding.fromStr p.1 =
        some (choose_transfer_encoding
          [⟨"TE", "identity;q=0.3, chunked;q=0.9"⟩] (1, 1) (some 50) false) ∧
      ∀ q ∈ [("identity", mkRat 3 10), ("chunked", mkRat 9 10)], 0 < q.2 →
        (TransferEncoding.fromStr q.1).isSome = true → q.2 ≤ p.2) ∧
    choose_transfer_encoding [⟨"TE", "identity;q=0.3, chunked;q=0.9"⟩] (1, 1)
      (some 50) false = TransferEncoding.Chunked :=
  ⟨by decide, by decide, by decide, by decide,
   (C2_te_highest_weight [⟨"TE", "identity;q=0.3, chunked;q=0.9"⟩] (1, 1)
     (some 50) ⟨"TE", "identity;q=0.3, chunked;q=0.9"⟩
     [("identity", mkRat 3 10), ("chunked", mkRat 9 10)]
     (by decide) (by decide) (by decide) (by decide)).1,
   (C2_te_highest_weight [⟨"TE", "identity;q=0.3, chunked;q=0.9"⟩] (1, 1)
     (some 50) ⟨"TE", "identity;q=0.3, chunked;q=0.9"⟩
     [("identity", mkRat 3 10), ("chunked", mkRat 9 10)]
     (by decide) (by decide) (by decide) (by decide)).2⟩

end TinyHttp
